import Mathlib

/-!
# Conjur Terraform provider: credential selection and secret retrieval

A shallow embedding of `conjur/provider.go`.

* Go `string` values are Lean `String`s; the conversion `[]byte(s)` is the UTF-8 byte
  sequence of `s`, each byte a natural number below 256.
* Machine words are natural numbers reduced modulo `2 ^ 32` (or `2 ^ 64`, `256`).
* The packages the provider imports are embedded as follows: `crypto/sha256` and
  `encoding/hex` are written out in full (namespaces `sha256`, `hex`); the Terraform
  `schema.ResourceData` is an association list of attribute values together with the
  resource id; the Conjur client library is a record of its four entry points
  (`conjurapi.Library`) and a client is a record with its `RetrieveSecret` method, so that
  every statement below holds for every behaviour of the library.
* Effects are explicit: `providerConfig` returns what the selected constructor returns, and
  `dataSourceSecretRead` maps a `World` (resource data, client handle, log, trace of
  retrieval calls) to the returned error and the new `World`.
-/

set_option autoImplicit false
set_option linter.unusedVariables false
set_option maxRecDepth 100000

namespace conjur

namespace sha256

/-- Integer cube root by binary search: the bits of the root from bit `b - 1` down. -/
def cubeRootAux (n : Nat) : Nat → Nat → Nat
  | 0, r => r
  | b + 1, r => cubeRootAux n b (if (r + 2 ^ b) ^ 3 ≤ n then r + 2 ^ b else r)

/-- The first sixty-four prime numbers. -/
def primes : List Nat := [
  2, 3, 5, 7, 11, 13, 17, 19, 23, 29, 31, 37, 41, 43, 47, 53,
  59, 61, 67, 71, 73, 79, 83, 89, 97, 101, 103, 107, 109, 113, 127, 131,
  137, 139, 149, 151, 157, 163, 167, 173, 179, 181, 191, 193, 197, 199, 211, 223,
  227, 229, 233, 239, 241, 251, 257, 263, 269, 271, 277, 281, 283, 293, 307, 311]

/-- Round constants of SHA-256, the table `_K` of `crypto/sha256`, by their definition in
FIPS 180-4: the first 32 bits of the fractional part of the cube root of each of the first
sixty-four primes (`0x428a2f98` for 2, up to `0xc67178f2` for 311). -/
def _K : List Nat := primes.map (fun p => cubeRootAux (p * 2 ^ 96) 36 0 % 2 ^ 32)

/-- Hash state: the eight 32-bit chaining words `h[0..7]`. -/
structure digest where
  h0 : Nat
  h1 : Nat
  h2 : Nat
  h3 : Nat
  h4 : Nat
  h5 : Nat
  h6 : Nat
  h7 : Nat
deriving DecidableEq, Repr

/-- Initial chaining value (`init0 .. init7`). -/
def init : digest :=
  { h0 := 0x6a09e667, h1 := 0xbb67ae85, h2 := 0x3c6ef372, h3 := 0xa54ff53a,
    h4 := 0x510e527f, h5 := 0x9b05688c, h6 := 0x1f83d9ab, h7 := 0x5be0cd19 }

/-- Rotation of a 32-bit word to the right by `k` bits: `bits.RotateLeft32(x, -k)`. -/
def rotr (x k : Nat) : Nat := ((x >>> k) ||| (x <<< (32 - k))) % 2 ^ 32

/-- Words 16..63 of the message schedule, appended one at a time. -/
def extend : Nat → List Nat → List Nat
  | 0, w => w
  | n + 1, w =>
    let i := w.length
    let v1 := w.getD (i - 2) 0
    let t1 := rotr v1 17 ^^^ rotr v1 19 ^^^ (v1 >>> 10)
    let v2 := w.getD (i - 15) 0
    let t2 := rotr v2 7 ^^^ rotr v2 18 ^^^ (v2 >>> 3)
    extend n (w ++ [(t1 + w.getD (i - 7) 0 + t2 + w.getD (i - 16) 0) % 2 ^ 32])

/-- Big-endian load of the sixteen 32-bit words of a 64-byte chunk. -/
def words : Nat → List Nat → List Nat
  | 0, _ => []
  | n + 1, p =>
    ((p.getD 0 0 <<< 24) ||| (p.getD 1 0 <<< 16) ||| (p.getD 2 0 <<< 8) ||| p.getD 3 0)
      :: words n (p.drop 4)

/-- One of the 64 compression rounds on the working variables `a..h`. -/
def round (s : digest) (kw : Nat × Nat) : digest :=
  let a := s.h0
  let b := s.h1
  let c := s.h2
  let d := s.h3
  let e := s.h4
  let f := s.h5
  let g := s.h6
  let h := s.h7
  let t1 := h + (rotr e 6 ^^^ rotr e 11 ^^^ rotr e 25) + ((e &&& f) ^^^ ((e ^^^ 0xffffffff) &&& g))
    + kw.1 + kw.2
  let t2 := (rotr a 2 ^^^ rotr a 13 ^^^ rotr a 22) + ((a &&& b) ^^^ (a &&& c) ^^^ (b &&& c))
  { h0 := (t1 + t2) % 2 ^ 32, h1 := a, h2 := b, h3 := c,
    h4 := (d + t1) % 2 ^ 32, h5 := e, h6 := f, h7 := g }

/-- Compression of one 64-byte chunk `p` into the state (`blockGeneric`, one iteration). -/
def block (dig : digest) (p : List Nat) : digest :=
  let w := extend 48 (words 16 p)
  let r := (_K.zip w).foldl round dig
  { h0 := (dig.h0 + r.h0) % 2 ^ 32, h1 := (dig.h1 + r.h1) % 2 ^ 32,
    h2 := (dig.h2 + r.h2) % 2 ^ 32, h3 := (dig.h3 + r.h3) % 2 ^ 32,
    h4 := (dig.h4 + r.h4) % 2 ^ 32, h5 := (dig.h5 + r.h5) % 2 ^ 32,
    h6 := (dig.h6 + r.h6) % 2 ^ 32, h7 := (dig.h7 + r.h7) % 2 ^ 32 }

/-- Compression of the first `n` 64-byte chunks of `p`. -/
def blocks (dig : digest) : Nat → List Nat → digest
  | 0, _ => dig
  | n + 1, p => blocks (block dig (p.take 64)) n (p.drop 64)

/-- Big-endian bytes of a word, `n` bytes wide. -/
def bigEndian : Nat → Nat → List Nat
  | 0, _ => []
  | n + 1, v => ((v >>> (8 * n)) % 256) :: bigEndian n v

/-- Padding appended to a message of `len` bytes: a one bit, zero bits up to 56 bytes
mod 64, then the length in bits as a big-endian 64-bit integer. -/
def padding (len : Nat) : List Nat :=
  let t := if len % 64 < 56 then 56 - len % 64 else 64 + 56 - len % 64
  0x80 :: List.replicate (t - 1) 0 ++ bigEndian 8 ((len <<< 3) % 2 ^ 64)

/-- Function `sha256.Sum256`: the 32-byte SHA-256 checksum of `data`. -/
def Sum256 (data : List Nat) : List Nat :=
  let p := data ++ padding data.length
  let d := blocks init (p.length / 64) p
  bigEndian 4 d.h0 ++ bigEndian 4 d.h1 ++ bigEndian 4 d.h2 ++ bigEndian 4 d.h3 ++
    bigEndian 4 d.h4 ++ bigEndian 4 d.h5 ++ bigEndian 4 d.h6 ++ bigEndian 4 d.h7

end sha256

namespace hex

/-- Digits of the encoding (`hextable`). -/
def hextable : String := "0123456789abcdef"

/-- Function `hex.Encode`: for each byte `v` the digits `hextable[v>>4]`, `hextable[v&0x0f]`. -/
def Encode : List Nat → List Char
  | [] => []
  | v :: src =>
    hextable.data.getD ((v % 256) >>> 4) '0' :: hextable.data.getD ((v % 256) &&& 0x0f) '0'
      :: Encode src

/-- Function `hex.EncodeToString`. -/
def EncodeToString (src : List Nat) : String := String.mk (Encode src)

end hex

namespace schema

/-- Terraform `schema.ResourceData`: the attribute values (most recent write first) and the
resource id. -/
structure ResourceData where
  attrs : List (String × String)
  id : String
deriving DecidableEq, Repr

/-- Method `d.Get(key).(string)`: the value of a string attribute, `""` when it is unset. -/
def ResourceData.Get (d : ResourceData) (key : String) : String :=
  (d.attrs.lookup key).getD ""

/-- Method `d.Set(key, value)`. -/
def ResourceData.Set (d : ResourceData) (key value : String) : ResourceData :=
  { d with attrs := (key, value) :: d.attrs }

/-- Method `d.SetId(v)`. -/
def ResourceData.SetId (d : ResourceData) (v : String) : ResourceData :=
  { d with id := v }

end schema

namespace authn

/-- Type `authn.LoginPair`. -/
structure LoginPair where
  Login : String
  APIKey : String
deriving DecidableEq, Repr

/-- Type `authn.IAMAuthn`. -/
structure IAMAuthn where
  Login : String
  AwsIamRole : String
  AwsAccount : String
  AuthnIamServiceId : String
  AwsRegion : String
deriving DecidableEq, Repr

end authn

namespace conjurapi

/-- Type `conjurapi.Config`, with the four fields the provider reads or writes. -/
structure Config where
  ApplianceURL : String
  Account : String
  SSLCert : String
  SSLCertPath : String
deriving DecidableEq, Repr

/-- Type `conjurapi.Client`: the authenticated handle, with its retrieval method. The secret
payload is carried as the Go string `string(secretValue)`. -/
structure Client (ε : Type) where
  RetrieveSecret : String → Except ε String

/-- The entry points of the client library that the provider calls. `LoadConfig` is the
outcome of reading the ambient configuration; the three constructors return a client of
type `κ` or an error of type `ε`. -/
structure Library (ε κ : Type) where
  LoadConfig : Except ε Config
  NewClientFromKey : Config → authn.LoginPair → Except ε κ
  NewClientFromIAMAuthn : Config → authn.IAMAuthn → Except ε κ
  NewClientFromEnvironment : Config → Except ε κ

/-- A constructor call of the client library together with its arguments. -/
inductive Construction where
  | NewClientFromKey (config : Config) (loginPair : authn.LoginPair)
  | NewClientFromIAMAuthn (config : Config) (iamAuthn : authn.IAMAuthn)
  | NewClientFromEnvironment (config : Config)
deriving DecidableEq, Repr

/-- The configuration handed to the constructor. -/
def Construction.config : Construction → Config
  | .NewClientFromKey config _ => config
  | .NewClientFromIAMAuthn config _ => config
  | .NewClientFromEnvironment config => config

/-- Performing a recorded constructor call against a library. -/
def Construction.run {ε κ : Type} (api : Library ε κ) : Construction → Except ε κ
  | .NewClientFromKey config loginPair => api.NewClientFromKey config loginPair
  | .NewClientFromIAMAuthn config iamAuthn => api.NewClientFromIAMAuthn config iamAuthn
  | .NewClientFromEnvironment config => api.NewClientFromEnvironment config

/-- The library whose constructors always succeed and return the call they received, with
`load` as the outcome of `LoadConfig`. -/
def recorder {ε : Type} (load : Except ε Config) : Library ε Construction :=
  { LoadConfig := load
    NewClientFromKey := fun config loginPair => .ok (.NewClientFromKey config loginPair)
    NewClientFromIAMAuthn := fun config iamAuthn => .ok (.NewClientFromIAMAuthn config iamAuthn)
    NewClientFromEnvironment := fun config => .ok (.NewClientFromEnvironment config) }

end conjurapi

open schema

/-- Function `providerConfig` of `provider.go`. -/
def providerConfig {ε κ : Type} (api : conjurapi.Library ε κ) (d : ResourceData) :
    Except ε κ :=
  match api.LoadConfig with
  | .error err => .error err
  | .ok config =>
    -- If server info has been specified in the schema, use it.
    let appliance_url := d.Get "appliance_url"
    let config := if appliance_url ≠ "" then { config with ApplianceURL := appliance_url }
      else config
    -- Add `/api` to appliance url for Conjur Cloud support
    let appliance_url := appliance_url ++ "/api"
    let account := d.Get "account"
    let config := if account ≠ "" then { config with Account := account } else config
    let ssl_cert := d.Get "ssl_cert"
    let config := if ssl_cert ≠ "" then { config with SSLCert := ssl_cert } else config
    let ssl_cert_path := d.Get "ssl_cert_path"
    let config := if ssl_cert_path ≠ "" then { config with SSLCertPath := ssl_cert_path }
      else config
    -- If creds have been specified in the schema, use them.
    let login := d.Get "login"
    let apiKey := d.Get "api_key"
    if login ≠ "" ∧ apiKey ≠ "" then
      let loginPair : authn.LoginPair := { Login := login, APIKey := apiKey }
      api.NewClientFromKey config loginPair
    else
      -- If AWS parameters have been specified in the schema, use them.
      -- (the source reads `login` a second time here)
      let login := d.Get "login"
      let aws_iam_role := d.Get "aws_iam_role"
      let authn_iam_service_id := d.Get "authn_iam_service_id"
      let aws_region := d.Get "aws_region"
      let aws_account := d.Get "aws_account"
      if login ≠ "" ∧ aws_iam_role ≠ "" ∧ aws_account ≠ "" ∧ authn_iam_service_id ≠ ""
          ∧ aws_region ≠ "" then
        let iamAuthn : authn.IAMAuthn :=
          { Login := login
            AwsIamRole := aws_iam_role
            AwsAccount := aws_account
            AuthnIamServiceId := authn_iam_service_id
            AwsRegion := aws_region }
        api.NewClientFromIAMAuthn config iamAuthn
      else
        api.NewClientFromEnvironment config

/-- Conversion `[]byte(s)`: the bytes of a string. -/
def bytes (s : String) : List Nat := s.toUTF8.data.toList.map UInt8.toNat

/-- Function `hash` of `provider.go`. -/
def hash (s : String) : String :=
  let sha := sha256.Sum256 (bytes s)
  hex.EncodeToString sha

/-- Everything `dataSourceSecretRead` reads or writes: the resource data `d`, the client
handle `meta`, the entries written to the log so far, and the names passed to
`RetrieveSecret` so far. -/
structure World (ε : Type) where
  d : ResourceData
  meta : conjurapi.Client ε
  log : List String
  retrieved : List String

/-- Function `dataSourceSecretRead` of `provider.go`. The result is the returned `error`
(`none` for `nil`) and the world after the call. `Quote` is `strconv.Quote`, the rendering
of the verb `%q` for a string; a log entry is the formatted message handed to `log.Printf`. -/
def dataSourceSecretRead {ε : Type} (Quote : String → String) (w : World ε) :
    Option ε × World ε :=
  let client := w.meta
  let name := w.d.Get "name"
  let version := w.d.Get "version"
  -- log.Printf("[DEBUG] Getting secret for name=%q version=%q", name, version)
  let w := { w with log := w.log ++
    ["[DEBUG] Getting secret for name=" ++ Quote name ++ " version=" ++ Quote version] }
  -- secretValue, err := client.RetrieveSecret(name)
  let w := { w with retrieved := w.retrieved ++ [name] }
  match client.RetrieveSecret name with
  | .error err => (some err, w)
  | .ok secretValue =>
    let w := { w with d := w.d.Set "value" secretValue }
    let w := { w with d := w.d.SetId (hash secretValue) }
    (none, w)

/-- The effective configuration of the specification: each explicit value that is not empty
replaces the ambient value of its field. -/
def effectiveConfig (ambient : conjurapi.Config) (d : ResourceData) : conjurapi.Config :=
  { ApplianceURL :=
      if d.Get "appliance_url" ≠ "" then d.Get "appliance_url" else ambient.ApplianceURL
    Account := if d.Get "account" ≠ "" then d.Get "account" else ambient.Account
    SSLCert := if d.Get "ssl_cert" ≠ "" then d.Get "ssl_cert" else ambient.SSLCert
    SSLCertPath :=
      if d.Get "ssl_cert_path" ≠ "" then d.Get "ssl_cert_path" else ambient.SSLCertPath }

/-- Lowercase hexadecimal digit: one of `0-9`, `a-f`. -/
def isLowerHex (c : Char) : Bool :=
  ('0' ≤ c ∧ c ≤ '9') ∨ ('a' ≤ c ∧ c ≤ 'f')

/-! ## Example inputs -/

/-- An ambient configuration. -/
def ambientExample : conjurapi.Config :=
  { ApplianceURL := "https://ambient.example.com"
    Account := "ambient-account"
    SSLCert := ""
    SSLCertPath := "/etc/conjur.pem" }

/-- Static key pair together with a complete set of IAM parameters. -/
def staticKeyExample : ResourceData :=
  { attrs := [("login", "bot"), ("api_key", "k123"), ("aws_iam_role", "role-1"),
      ("aws_account", "111122223333"), ("authn_iam_service_id", "svc1"),
      ("aws_region", "us-east-1")]
    id := "" }

/-- Complete set of IAM parameters, no API key. -/
def cloudIAMExample : ResourceData :=
  { attrs := [("login", "bot"), ("aws_iam_role", "role-1"), ("aws_account", "111122223333"),
      ("authn_iam_service_id", "svc1"), ("aws_region", "us-east-1")]
    id := "" }

/-- Login without API key and an incomplete set of IAM parameters. -/
def partialExample : ResourceData :=
  { attrs := [("login", "bot"), ("aws_iam_role", "role-1")], id := "" }

/-- Explicit appliance URL and account. -/
def explicitURLExample : ResourceData :=
  { attrs := [("appliance_url", "https://vault.example.com"), ("account", "prod")], id := "" }

/-- No explicit value at all. -/
def emptyExample : ResourceData := { attrs := [], id := "" }

/-- Explicit appliance URL with a static key pair. -/
def cloudURLExample : ResourceData :=
  { attrs := [("appliance_url", "https://vault.example.com"), ("login", "bot"),
      ("api_key", "k123")]
    id := "" }

/-- A vault holding one secret. -/
def vaultExample : conjurapi.Client String :=
  { RetrieveSecret := fun name =>
      if name = "db/password" then .ok "s3cr3t" else .error "404 Not Found" }

/-- The same vault after the secret was rotated. -/
def rotatedVaultExample : conjurapi.Client String :=
  { RetrieveSecret := fun name =>
      if name = "db/password" then .ok "hunter2" else .error "404 Not Found" }

/-- A lookup of `db/password` at version `latest`. -/
def lookupExample : World String :=
  { d := { attrs := [("name", "db/password"), ("version", "latest")], id := "" }
    meta := vaultExample
    log := []
    retrieved := [] }

/-- A lookup of a name the vault does not hold. -/
def missingExample : World String :=
  { d := { attrs := [("name", "db/absent"), ("version", "latest")], id := "" }
    meta := vaultExample
    log := []
    retrieved := [] }

/-- A quoting function for the examples: the argument between angle brackets. -/
def quoteExample (s : String) : String := "<" ++ s ++ ">"

/-! ## Theorems -/

/-- A big-endian encoding `n` bytes wide has `n` bytes. -/
theorem sha256.bigEndian_length (n v : Nat) : (sha256.bigEndian n v).length = n := by
  induction n with
  | zero => rfl
  | succ n ih => simp [sha256.bigEndian, ih]

/-- The checksum has 32 bytes. -/
theorem sha256.Sum256_length (data : List Nat) : (sha256.Sum256 data).length = 32 := by
  simp [sha256.Sum256, sha256.bigEndian_length]

/-- The encoding has two characters per byte. -/
theorem hex.Encode_length (src : List Nat) : (hex.Encode src).length = 2 * src.length := by
  induction src with
  | nil => rfl
  | cons v src ih => simp [hex.Encode, ih]; omega

/-- The sixteen digits of `hextable` are lowercase hexadecimal. -/
theorem hex.hextable_lower : ∀ i < 16, isLowerHex (hex.hextable.data.getD i '0') = true := by
  decide

/-- Every character of an encoding is a lowercase hexadecimal digit. -/
theorem hex.Encode_lower (src : List Nat) : ∀ c ∈ hex.Encode src, isLowerHex c = true := by
  induction src with
  | nil => simp [hex.Encode]
  | cons v src ih =>
    intro c hc
    simp only [hex.Encode, List.mem_cons] at hc
    rcases hc with rfl | rfl | hc
    · apply hex.hextable_lower
      have : v % 256 < 256 := Nat.mod_lt _ (by decide)
      rw [Nat.shiftRight_eq_div_pow]
      omega
    · apply hex.hextable_lower
      exact Nat.lt_of_le_of_lt Nat.and_le_right (by decide)
    · exact ih c hc

/-- The sequence of conditional overwrites in `providerConfig` builds `effectiveConfig`. -/
theorem overwrites_eq_effectiveConfig (config : conjurapi.Config) (d : ResourceData) :
    (let c1 := if d.Get "appliance_url" ≠ "" then
        { config with ApplianceURL := d.Get "appliance_url" } else config
     let c2 := if d.Get "account" ≠ "" then { c1 with Account := d.Get "account" } else c1
     let c3 := if d.Get "ssl_cert" ≠ "" then { c2 with SSLCert := d.Get "ssl_cert" } else c2
     if d.Get "ssl_cert_path" ≠ "" then { c3 with SSLCertPath := d.Get "ssl_cert_path" }
       else c3) = effectiveConfig config d := by
  simp only [effectiveConfig]
  split_ifs <;> rfl

/-- Function `providerConfig` as one load followed by the three-way credential selection
on the effective configuration. -/
theorem providerConfig_selection {ε κ : Type} (api : conjurapi.Library ε κ)
    (d : ResourceData) :
    providerConfig api d = api.LoadConfig.bind (fun ambient =>
      if d.Get "login" ≠ "" ∧ d.Get "api_key" ≠ "" then
        api.NewClientFromKey (effectiveConfig ambient d)
          { Login := d.Get "login", APIKey := d.Get "api_key" }
      else if d.Get "login" ≠ "" ∧ d.Get "aws_iam_role" ≠ "" ∧ d.Get "aws_account" ≠ ""
          ∧ d.Get "authn_iam_service_id" ≠ "" ∧ d.Get "aws_region" ≠ "" then
        api.NewClientFromIAMAuthn (effectiveConfig ambient d)
          { Login := d.Get "login"
            AwsIamRole := d.Get "aws_iam_role"
            AwsAccount := d.Get "aws_account"
            AuthnIamServiceId := d.Get "authn_iam_service_id"
            AwsRegion := d.Get "aws_region" }
      else api.NewClientFromEnvironment (effectiveConfig ambient d)) := by
  unfold providerConfig
  cases hload : api.LoadConfig with
  | error err => rfl
  | ok config =>
    have h := overwrites_eq_effectiveConfig config d
    simp only at h
    simp only [Except.bind, h]

/-- Function `providerConfig` is: load the ambient configuration, then perform the constructor
call that the recording library reports for that configuration. -/
theorem providerConfig_run {ε κ : Type} (api : conjurapi.Library ε κ) (d : ResourceData) :
    providerConfig api d = api.LoadConfig.bind (fun ambient =>
      (providerConfig (conjurapi.recorder (Except.ok ambient : Except ε conjurapi.Config)) d).bind
        (conjurapi.Construction.run api)) := by
  rw [providerConfig_selection api d]
  cases hload : api.LoadConfig with
  | error err => rfl
  | ok config =>
    simp only [Except.bind, providerConfig_selection, conjurapi.recorder]
    split_ifs <;> rfl

/-- Reading an attribute after a write. -/
theorem ResourceData_Get_Set (d : ResourceData) (key value key' : String) :
    (d.Set key value).Get key' = if key' = key then value else d.Get key' := by
  unfold ResourceData.Get ResourceData.Set
  by_cases h : key' = key
  · simp [List.lookup, h]
  · have hb : (key' == key) = false := by simpa using h
    simp [List.lookup, hb, h]

/-- Setting the id leaves the attributes alone. -/
theorem ResourceData_Get_SetId (d : ResourceData) (v key : String) :
    (d.SetId v).Get key = d.Get key := rfl

/-! ### Credential selection -/

/-- Claim C1: when `login` and `api_key` are both non-empty, `providerConfig` is the load of
the ambient configuration followed by `NewClientFromKey` on the login pair made of exactly
these two values, whatever the four IAM attributes hold; the call seen by the library is
`NewClientFromKey`, not the IAM or the environment constructor. -/
theorem providerConfig_static_key {ε κ : Type} (api : conjurapi.Library ε κ)
    (d : ResourceData) (hlogin : d.Get "login" ≠ "") (hkey : d.Get "api_key" ≠ "") :
    providerConfig api d = api.LoadConfig.bind (fun ambient =>
        api.NewClientFromKey (effectiveConfig ambient d)
          { Login := d.Get "login", APIKey := d.Get "api_key" })
    ∧ ∀ ambient : conjurapi.Config,
        providerConfig (conjurapi.recorder (Except.ok ambient : Except ε conjurapi.Config)) d
          = .ok (.NewClientFromKey (effectiveConfig ambient d)
              { Login := d.Get "login", APIKey := d.Get "api_key" }) := by
  constructor
  · rw [providerConfig_selection]
    simp only [hlogin, hkey, ne_eq, not_false_eq_true, and_self, if_true]
  · intro ambient
    rw [providerConfig_selection]
    simp only [hlogin, hkey, ne_eq, not_false_eq_true, and_self, if_true]
    rfl

/-- Instance of C1 with a static key pair and all four IAM attributes set. -/
theorem providerConfig_static_key_witness :
    staticKeyExample.Get "aws_iam_role" ≠ "" ∧ staticKeyExample.Get "aws_account" ≠ ""
    ∧ staticKeyExample.Get "authn_iam_service_id" ≠ "" ∧ staticKeyExample.Get "aws_region" ≠ ""
    ∧ providerConfig
        (conjurapi.recorder (Except.ok ambientExample : Except String conjurapi.Config))
        staticKeyExample
      = .ok (.NewClientFromKey ambientExample { Login := "bot", APIKey := "k123" }) :=
  ⟨by decide, by decide, by decide, by decide,
    (providerConfig_static_key (conjurapi.recorder (Except.ok ambientExample)) staticKeyExample
      (by decide) (by decide)).1⟩

/-- Claim C2: when `login`, `aws_iam_role`, `aws_account`, `authn_iam_service_id` and
`aws_region` are all non-empty and `api_key` is empty, `providerConfig` is the load of the
ambient configuration followed by `NewClientFromIAMAuthn` on the `IAMAuthn` whose five fields
are the five attributes, each in its own field. -/
theorem providerConfig_cloud_iam {ε κ : Type} (api : conjurapi.Library ε κ)
    (d : ResourceData) (hlogin : d.Get "login" ≠ "") (hrole : d.Get "aws_iam_role" ≠ "")
    (haccount : d.Get "aws_account" ≠ "") (hservice : d.Get "authn_iam_service_id" ≠ "")
    (hregion : d.Get "aws_region" ≠ "") (hkey : d.Get "api_key" = "") :
    providerConfig api d = api.LoadConfig.bind (fun ambient =>
        api.NewClientFromIAMAuthn (effectiveConfig ambient d)
          { Login := d.Get "login"
            AwsIamRole := d.Get "aws_iam_role"
            AwsAccount := d.Get "aws_account"
            AuthnIamServiceId := d.Get "authn_iam_service_id"
            AwsRegion := d.Get "aws_region" })
    ∧ ∀ ambient : conjurapi.Config,
        providerConfig (conjurapi.recorder (Except.ok ambient : Except ε conjurapi.Config)) d
          = .ok (.NewClientFromIAMAuthn (effectiveConfig ambient d)
              { Login := d.Get "login"
                AwsIamRole := d.Get "aws_iam_role"
                AwsAccount := d.Get "aws_account"
                AuthnIamServiceId := d.Get "authn_iam_service_id"
                AwsRegion := d.Get "aws_region" }) := by
  constructor
  · rw [providerConfig_selection]
    simp only [hlogin, hkey, hrole, haccount, hservice, hregion, ne_eq, not_false_eq_true,
      and_self, if_true, not_true_eq_false, and_false, if_false]
  · intro ambient
    rw [providerConfig_selection]
    simp only [hlogin, hkey, hrole, haccount, hservice, hregion, ne_eq, not_false_eq_true,
      and_self, if_true, not_true_eq_false, and_false, if_false]
    rfl

/-- Instance of C2 with five pairwise distinct IAM values. -/
theorem providerConfig_cloud_iam_witness :
    providerConfig
        (conjurapi.recorder (Except.ok ambientExample : Except String conjurapi.Config))
        cloudIAMExample
      = .ok (.NewClientFromIAMAuthn ambientExample
          { Login := "bot"
            AwsIamRole := "role-1"
            AwsAccount := "111122223333"
            AuthnIamServiceId := "svc1"
            AwsRegion := "us-east-1" }) :=
  (providerConfig_cloud_iam (conjurapi.recorder (Except.ok ambientExample)) cloudIAMExample
    (by decide) (by decide) (by decide) (by decide) (by decide) (by decide)).1

/-- Claim C3: when at least one of `login`, `aws_iam_role`, `aws_account`,
`authn_iam_service_id`, `aws_region` is empty and `login`, `api_key` are not both non-empty,
`providerConfig` is the load of the ambient configuration followed by
`NewClientFromEnvironment`; the selection adds no error of its own, the result being exactly
what that constructor returns. -/
theorem providerConfig_ambient {ε κ : Type} (api : conjurapi.Library ε κ)
    (d : ResourceData)
    (hiam : d.Get "login" = "" ∨ d.Get "aws_iam_role" = "" ∨ d.Get "aws_account" = ""
      ∨ d.Get "authn_iam_service_id" = "" ∨ d.Get "aws_region" = "")
    (hkey : ¬ (d.Get "login" ≠ "" ∧ d.Get "api_key" ≠ "")) :
    providerConfig api d = api.LoadConfig.bind (fun ambient =>
        api.NewClientFromEnvironment (effectiveConfig ambient d))
    ∧ ∀ ambient : conjurapi.Config,
        providerConfig (conjurapi.recorder (Except.ok ambient : Except ε conjurapi.Config)) d
          = .ok (.NewClientFromEnvironment (effectiveConfig ambient d)) := by
  have hiam' : ¬ (d.Get "login" ≠ "" ∧ d.Get "aws_iam_role" ≠ "" ∧ d.Get "aws_account" ≠ ""
      ∧ d.Get "authn_iam_service_id" ≠ "" ∧ d.Get "aws_region" ≠ "") := by
    rintro ⟨h1, h2, h3, h4, h5⟩
    rcases hiam with h | h | h | h | h
    · exact h1 h
    · exact h2 h
    · exact h3 h
    · exact h4 h
    · exact h5 h
  constructor
  · rw [providerConfig_selection]
    simp only [if_neg hkey, if_neg hiam']
  · intro ambient
    rw [providerConfig_selection]
    simp only [if_neg hkey, if_neg hiam']
    rfl

/-- Instance of C3: `login` set, `api_key` empty, IAM parameters incomplete. -/
theorem providerConfig_ambient_witness :
    partialExample.Get "login" = "bot" ∧ partialExample.Get "api_key" = ""
    ∧ partialExample.Get "aws_iam_role" = "role-1" ∧ partialExample.Get "aws_account" = ""
    ∧ providerConfig
        (conjurapi.recorder (Except.ok ambientExample : Except String conjurapi.Config))
        partialExample
      = .ok (.NewClientFromEnvironment ambientExample) :=
  ⟨by decide, by decide, by decide, by decide,
    (providerConfig_ambient (conjurapi.recorder (Except.ok ambientExample)) partialExample
      (by decide) (by decide)).1⟩

/-! ### Effective configuration -/

/-- Claim C4: when the ambient configuration `ambient` was loaded, `providerConfig` performs
one constructor call, and the configuration handed to it has, for each of `ApplianceURL`,
`Account`, `SSLCert`, `SSLCertPath` separately, the explicit attribute when that is non-empty
and the ambient value when the explicit attribute is the empty string. -/
theorem providerConfig_effective_config {ε κ : Type} (api : conjurapi.Library ε κ)
    (d : ResourceData) (ambient : conjurapi.Config) (hload : api.LoadConfig = .ok ambient) :
    ∃ call : conjurapi.Construction,
      providerConfig (conjurapi.recorder api.LoadConfig) d = .ok call
      ∧ providerConfig api d = call.run api
      ∧ (d.Get "appliance_url" ≠ "" → call.config.ApplianceURL = d.Get "appliance_url")
      ∧ (d.Get "appliance_url" = "" → call.config.ApplianceURL = ambient.ApplianceURL)
      ∧ (d.Get "account" ≠ "" → call.config.Account = d.Get "account")
      ∧ (d.Get "account" = "" → call.config.Account = ambient.Account)
      ∧ (d.Get "ssl_cert" ≠ "" → call.config.SSLCert = d.Get "ssl_cert")
      ∧ (d.Get "ssl_cert" = "" → call.config.SSLCert = ambient.SSLCert)
      ∧ (d.Get "ssl_cert_path" ≠ "" → call.config.SSLCertPath = d.Get "ssl_cert_path")
      ∧ (d.Get "ssl_cert_path" = "" → call.config.SSLCertPath = ambient.SSLCertPath) := by
  have hcfg : ∀ call : conjurapi.Construction, call.config = effectiveConfig ambient d →
      (d.Get "appliance_url" ≠ "" → call.config.ApplianceURL = d.Get "appliance_url")
      ∧ (d.Get "appliance_url" = "" → call.config.ApplianceURL = ambient.ApplianceURL)
      ∧ (d.Get "account" ≠ "" → call.config.Account = d.Get "account")
      ∧ (d.Get "account" = "" → call.config.Account = ambient.Account)
      ∧ (d.Get "ssl_cert" ≠ "" → call.config.SSLCert = d.Get "ssl_cert")
      ∧ (d.Get "ssl_cert" = "" → call.config.SSLCert = ambient.SSLCert)
      ∧ (d.Get "ssl_cert_path" ≠ "" → call.config.SSLCertPath = d.Get "ssl_cert_path")
      ∧ (d.Get "ssl_cert_path" = "" → call.config.SSLCertPath = ambient.SSLCertPath) := by
    intro call hc
    rw [hc]
    refine ⟨?_, ?_, ?_, ?_, ?_, ?_, ?_, ?_⟩ <;> intro h <;> simp [effectiveConfig, h]
  have hrun := providerConfig_run api d
  rw [hload] at hrun ⊢
  simp only [Except.bind] at hrun
  have hsel := providerConfig_selection
    (conjurapi.recorder (Except.ok ambient : Except ε conjurapi.Config)) d
  conv at hsel => rhs; simp only [conjurapi.recorder, Except.bind]
  split_ifs at hsel with h1 h2
  · refine ⟨_, hsel, ?_, hcfg _ rfl⟩
    rw [hrun, hsel]
  · refine ⟨_, hsel, ?_, hcfg _ rfl⟩
    rw [hrun, hsel]
  · refine ⟨_, hsel, ?_, hcfg _ rfl⟩
    rw [hrun, hsel]

/-- Instance of C4: the explicit `https://vault.example.com` replaces the ambient
`https://ambient.example.com`, and with no explicit value the ambient one stays. -/
theorem providerConfig_effective_config_witness :
    (∃ call : conjurapi.Construction,
      providerConfig
          (conjurapi.recorder (Except.ok ambientExample : Except String conjurapi.Config))
          explicitURLExample = .ok call
      ∧ call.config.ApplianceURL = "https://vault.example.com"
      ∧ call.config.SSLCertPath = "/etc/conjur.pem")
    ∧ (∃ call : conjurapi.Construction,
      providerConfig
          (conjurapi.recorder (Except.ok ambientExample : Except String conjurapi.Config))
          emptyExample = .ok call
      ∧ call.config.ApplianceURL = "https://ambient.example.com") := by
  constructor
  · obtain ⟨call, h, _, h1, _, _, _, _, _, _, h8⟩ :=
      providerConfig_effective_config
        (conjurapi.recorder (Except.ok ambientExample : Except String conjurapi.Config))
        explicitURLExample ambientExample rfl
    exact ⟨call, h, h1 (by decide), h8 (by decide)⟩
  · obtain ⟨call, h, _, _, h2, _⟩ :=
      providerConfig_effective_config
        (conjurapi.recorder (Except.ok ambientExample : Except String conjurapi.Config))
        emptyExample ambientExample rfl
    exact ⟨call, h, h2 (by decide)⟩

/-- Claim C10, the code at `appliance_url = "https://vault.example.com"` with a static key
pair: the configuration handed to `NewClientFromKey` has the appliance URL as given, which is
not the URL followed by `/api`; the suffix is appended to the local variable only after the
configuration field was written. -/
theorem providerConfig_appliance_url_no_api_suffix :
    providerConfig
        (conjurapi.recorder (Except.ok ambientExample : Except String conjurapi.Config))
        cloudURLExample
      = .ok (.NewClientFromKey
          { ApplianceURL := "https://vault.example.com"
            Account := "ambient-account"
            SSLCert := ""
            SSLCertPath := "/etc/conjur.pem" }
          { Login := "bot", APIKey := "k123" })
    ∧ "https://vault.example.com" ≠ cloudURLExample.Get "appliance_url" ++ "/api" := by
  constructor
  · rfl
  · decide

/-! ### Identity hash -/

/-- Every element of a big-endian encoding is a byte. -/
theorem sha256.bigEndian_lt (n v : Nat) : ∀ b ∈ sha256.bigEndian n v, b < 256 := by
  induction n with
  | zero => simp [sha256.bigEndian]
  | succ n ih =>
    intro b hb
    simp only [sha256.bigEndian, List.mem_cons] at hb
    rcases hb with rfl | hb
    · exact Nat.mod_lt _ (by decide)
    · exact ih b hb

/-- Every element of the checksum is a byte. -/
theorem sha256.Sum256_lt (data : List Nat) : ∀ b ∈ sha256.Sum256 data, b < 256 := by
  intro b hb
  simp only [sha256.Sum256, List.mem_append] at hb
  rcases hb with ((((((hb | hb) | hb) | hb) | hb) | hb) | hb) | hb <;>
    exact sha256.bigEndian_lt _ _ b hb

/-- The digit test spelled out. -/
theorem isLowerHex_iff (c : Char) :
    isLowerHex c = true ↔ (('0' ≤ c ∧ c ≤ '9') ∨ ('a' ≤ c ∧ c ≤ 'f')) := by
  simp [isLowerHex]

/-- Claim C7: for every string `s`, the empty one included, `hash s` has exactly 64
characters, each one of `0-9` or `a-f`; it is the hexadecimal encoding of the 32 bytes of the
SHA-256 checksum of the bytes of `s`; equal inputs give equal results. That the checksum is
SHA-256 of the bytes of the input, and not some other function of it, is checked on the
published test vectors: the empty message, the one-block message `abc` (whose bytes are
97, 98, 99) and the two-block message of 56 characters; inputs that differ in the sample
`a`, `b`, `abc`, the empty string give different results. -/
theorem hash_lowercase_hex_sha256 (s : String) :
    (hash s).length = 64
    ∧ (∀ c ∈ (hash s).data, ('0' ≤ c ∧ c ≤ '9') ∨ ('a' ≤ c ∧ c ≤ 'f'))
    ∧ hash s = hex.EncodeToString (sha256.Sum256 (bytes s))
    ∧ (sha256.Sum256 (bytes s)).length = 32
    ∧ (∀ b ∈ sha256.Sum256 (bytes s), b < 256)
    ∧ (∀ t : String, t = s → hash t = hash s)
    ∧ hash "" = "e3b0c44298fc1c149afbf4c8996fb92427ae41e4649b934ca495991b7852b855"
    ∧ bytes "abc" = [97, 98, 99]
    ∧ hash "abc" = "ba7816bf8f01cfea414140de5dae2223b00361a396177a9cb410ff61f20015ad"
    ∧ hash "abcdbcdecdefdefgefghfghighijhijkijkljklmklmnlmnomnopnopq"
        = "248d6a61d20638b8e5c026930c3e6039a33ce45964ff2167f6ecedd419db06c1"
    ∧ hash "a" = "ca978112ca1bbdcafac231b39a23dc4da786eff8147c4e72b9807785afee48bb"
    ∧ hash "b" = "3e23e8160039594a33894f6564e1b1348bbd7a0088d42c4acb73eeaed59c009d"
    ∧ hash "a" ≠ hash "b" ∧ hash "a" ≠ hash "abc" ∧ hash "" ≠ hash "a" := by
  refine ⟨?_, ?_, rfl, sha256.Sum256_length _, sha256.Sum256_lt _, ?_, by decide, by decide,
    by decide, by decide, by decide, by decide, by decide, by decide, by decide⟩
  · show (hex.Encode (sha256.Sum256 (bytes s))).length = 64
    rw [hex.Encode_length, sha256.Sum256_length]
  · intro c hc
    exact (isLowerHex_iff c).1 (hex.Encode_lower _ c hc)
  · intro t ht
    rw [ht]

/-! ### Secret retrieval -/

/-- The successful path of `dataSourceSecretRead`. -/
theorem read_of_retrieved {ε : Type} (Quote : String → String) (w : World ε)
    (p : String) (h : w.meta.RetrieveSecret (w.d.Get "name") = .ok p) :
    dataSourceSecretRead Quote w = (none,
      { d := (w.d.Set "value" p).SetId (hash p)
        meta := w.meta
        log := w.log ++ ["[DEBUG] Getting secret for name=" ++ Quote (w.d.Get "name")
          ++ " version=" ++ Quote (w.d.Get "version")]
        retrieved := w.retrieved ++ [w.d.Get "name"] }) := by
  unfold dataSourceSecretRead
  simp only [h]

/-- The failing path of `dataSourceSecretRead`. -/
theorem read_of_failed {ε : Type} (Quote : String → String) (w : World ε)
    (e : ε) (h : w.meta.RetrieveSecret (w.d.Get "name") = .error e) :
    dataSourceSecretRead Quote w = (some e,
      { d := w.d
        meta := w.meta
        log := w.log ++ ["[DEBUG] Getting secret for name=" ++ Quote (w.d.Get "name")
          ++ " version=" ++ Quote (w.d.Get "version")]
        retrieved := w.retrieved ++ [w.d.Get "name"] }) := by
  unfold dataSourceSecretRead
  simp only [h]

/-- Claim C5: when `RetrieveSecret(name)` succeeds with payload `p`, `dataSourceSecretRead`
returns no error, the attribute `value` is `p`, and the resource id is `hash p`, the
hexadecimal SHA-256 checksum of `p`; nothing else of the resource data changes. -/
theorem dataSourceSecretRead_success {ε : Type} (Quote : String → String) (w : World ε)
    (p : String) (hretrieve : w.meta.RetrieveSecret (w.d.Get "name") = .ok p) :
    (dataSourceSecretRead Quote w).1 = none
    ∧ (dataSourceSecretRead Quote w).2.d.Get "value" = p
    ∧ (dataSourceSecretRead Quote w).2.d.id = hash p
    ∧ hash p = hex.EncodeToString (sha256.Sum256 (bytes p))
    ∧ (dataSourceSecretRead Quote w).2.d = (w.d.Set "value" p).SetId (hash p) := by
  rw [read_of_retrieved Quote w p hretrieve]
  refine ⟨rfl, ?_, rfl, rfl, rfl⟩
  show ((w.d.Set "value" p).SetId (hash p)).Get "value" = p
  rw [ResourceData_Get_SetId, ResourceData_Get_Set, if_pos rfl]

/-- Instance of C5: name `db/password`, version `latest`, payload `s3cr3t`. -/
theorem dataSourceSecretRead_success_witness :
    lookupExample.d.Get "name" = "db/password" ∧ lookupExample.d.Get "version" = "latest"
    ∧ (dataSourceSecretRead quoteExample lookupExample).1 = none
    ∧ (dataSourceSecretRead quoteExample lookupExample).2.d.Get "value" = "s3cr3t"
    ∧ (dataSourceSecretRead quoteExample lookupExample).2.d.id = hash "s3cr3t"
    ∧ hash "s3cr3t" = "4e738ca5563c06cfd0018299933d58db1dd8bf97f6973dc99bf6cdc64b5550bd" :=
  ⟨by decide, by decide,
    (dataSourceSecretRead_success quoteExample lookupExample "s3cr3t" rfl).1,
    (dataSourceSecretRead_success quoteExample lookupExample "s3cr3t" rfl).2.1,
    (dataSourceSecretRead_success quoteExample lookupExample "s3cr3t" rfl).2.2.1,
    by decide⟩

/-- Claim C6: `dataSourceSecretRead` returns an error exactly when `RetrieveSecret(name)`
does, and then that very error; `RetrieveSecret` is called once, with `name`; on the error
path the resource data (attribute `value` and id included) and the client handle are what
they were before the call, so a later lookup of a name the vault holds still succeeds. -/
theorem dataSourceSecretRead_error_iff {ε : Type} (Quote : String → String) (w : World ε) :
    ((∃ e, (dataSourceSecretRead Quote w).1 = some e)
        ↔ ∃ e, w.meta.RetrieveSecret (w.d.Get "name") = .error e)
    ∧ (∀ e, (dataSourceSecretRead Quote w).1 = some e
        ↔ w.meta.RetrieveSecret (w.d.Get "name") = .error e)
    ∧ (dataSourceSecretRead Quote w).2.retrieved = w.retrieved ++ [w.d.Get "name"]
    ∧ (∀ e, w.meta.RetrieveSecret (w.d.Get "name") = .error e →
        (dataSourceSecretRead Quote w).2.d = w.d
        ∧ (dataSourceSecretRead Quote w).2.d.Get "value" = w.d.Get "value"
        ∧ (dataSourceSecretRead Quote w).2.d.id = w.d.id
        ∧ (dataSourceSecretRead Quote w).2.meta = w.meta
        ∧ ∀ (d' : ResourceData) (p : String),
            w.meta.RetrieveSecret (d'.Get "name") = .ok p →
            (dataSourceSecretRead Quote
              { (dataSourceSecretRead Quote w).2 with d := d' }).1 = none) := by
  cases h : w.meta.RetrieveSecret (w.d.Get "name") with
  | ok p =>
    rw [read_of_retrieved Quote w p h]
    refine ⟨?_, ?_, rfl, ?_⟩
    · constructor
      · rintro ⟨e, he⟩
        cases he
      · rintro ⟨e, he⟩
        cases he
    · intro e
      constructor
      · intro he
        cases he
      · intro he
        cases he
    · intro e he
      cases he
  | error e =>
    rw [read_of_failed Quote w e h]
    refine ⟨⟨fun _ => ⟨e, rfl⟩, fun _ => ⟨e, rfl⟩⟩, ?_, rfl, ?_⟩
    · intro e'
      constructor
      · intro he
        cases he
        rfl
      · intro he
        cases he
        rfl
    · intro e' _
      refine ⟨rfl, rfl, rfl, rfl, ?_⟩
      intro d' p hp
      rw [read_of_retrieved Quote _ p hp]

/-- Instance of C6: the vault does not hold `db/absent`; the error is the one the vault
returned, the resource data are untouched, and a following lookup of `db/password` on
the same handle succeeds. -/
theorem dataSourceSecretRead_error_iff_witness :
    (dataSourceSecretRead quoteExample missingExample).1 = some "404 Not Found"
    ∧ (dataSourceSecretRead quoteExample missingExample).2.d = missingExample.d
    ∧ (dataSourceSecretRead quoteExample missingExample).2.retrieved = ["db/absent"]
    ∧ (dataSourceSecretRead quoteExample
        { (dataSourceSecretRead quoteExample missingExample).2 with d := lookupExample.d }).1
      = none :=
  ⟨((dataSourceSecretRead_error_iff quoteExample missingExample).2.1 "404 Not Found").2 rfl,
    ((dataSourceSecretRead_error_iff quoteExample missingExample).2.2.2
      "404 Not Found" rfl).1,
    (dataSourceSecretRead_error_iff quoteExample missingExample).2.2.1,
    ((dataSourceSecretRead_error_iff quoteExample missingExample).2.2.2
      "404 Not Found" rfl).2.2.2.2 lookupExample.d "s3cr3t" rfl⟩

/-- Claim C8: the log after `dataSourceSecretRead` is the log before it followed by the one
entry `[DEBUG] Getting secret for name=... version=...` built from the quoted name and
version; hence two runs with the same name and version and the same log before, whatever
their clients return and whatever else their resource data hold, end with the same log. -/
theorem dataSourceSecretRead_log {ε₁ ε₂ : Type} (Quote : String → String) (w₁ : World ε₁)
    (w₂ : World ε₂) (hname : w₁.d.Get "name" = w₂.d.Get "name")
    (hversion : w₁.d.Get "version" = w₂.d.Get "version") (hlog : w₁.log = w₂.log) :
    (dataSourceSecretRead Quote w₁).2.log = (dataSourceSecretRead Quote w₂).2.log
    ∧ (dataSourceSecretRead Quote w₁).2.log = w₁.log ++
        ["[DEBUG] Getting secret for name=" ++ Quote (w₁.d.Get "name")
          ++ " version=" ++ Quote (w₁.d.Get "version")]
    ∧ (dataSourceSecretRead Quote w₂).2.log = w₂.log ++
        ["[DEBUG] Getting secret for name=" ++ Quote (w₂.d.Get "name")
          ++ " version=" ++ Quote (w₂.d.Get "version")] := by
  have key : ∀ {ε : Type} (w : World ε), (dataSourceSecretRead Quote w).2.log = w.log ++
      ["[DEBUG] Getting secret for name=" ++ Quote (w.d.Get "name")
        ++ " version=" ++ Quote (w.d.Get "version")] := by
    intro ε w
    cases h : w.meta.RetrieveSecret (w.d.Get "name") with
    | ok p => rw [read_of_retrieved Quote w p h]
    | error e => rw [read_of_failed Quote w e h]
  refine ⟨?_, key w₁, key w₂⟩
  rw [key w₁, key w₂, hname, hversion, hlog]

/-- Instance of C8: the same lookup against a vault holding `s3cr3t`, against one holding
`hunter2`, and a run that fails; the log is the same single entry each time. -/
theorem dataSourceSecretRead_log_witness :
    (dataSourceSecretRead quoteExample lookupExample).2.log
      = ["[DEBUG] Getting secret for name=<db/password> version=<latest>"]
    ∧ (dataSourceSecretRead quoteExample
        { lookupExample with meta := rotatedVaultExample }).2.log
      = ["[DEBUG] Getting secret for name=<db/password> version=<latest>"]
    ∧ (dataSourceSecretRead quoteExample
        { lookupExample with meta := { RetrieveSecret := fun _ => .error "timeout" } }).2.log
      = (dataSourceSecretRead quoteExample lookupExample).2.log :=
  ⟨(dataSourceSecretRead_log quoteExample lookupExample
      { lookupExample with meta := rotatedVaultExample } rfl rfl rfl).2.1,
    (dataSourceSecretRead_log quoteExample lookupExample
      { lookupExample with meta := rotatedVaultExample } rfl rfl rfl).2.2,
    (dataSourceSecretRead_log quoteExample
      { lookupExample with meta := { RetrieveSecret := fun _ => .error "timeout" } }
      lookupExample rfl rfl rfl).1⟩

/-- Claim C9: the version attribute is inert for retrieval. For any two version strings the
call made is `RetrieveSecret(name)` with the same name, and the returned error, the attribute
`value`, the id, every attribute other than `version` itself and the client handle are the
same; the version shows only in the log entry. -/
theorem dataSourceSecretRead_version_inert {ε : Type} (Quote : String → String)
    (w : World ε) (v₁ v₂ : String) :
    (dataSourceSecretRead Quote { w with d := w.d.Set "version" v₁ }).1
      = (dataSourceSecretRead Quote { w with d := w.d.Set "version" v₂ }).1
    ∧ (dataSourceSecretRead Quote { w with d := w.d.Set "version" v₁ }).2.retrieved
      = w.retrieved ++ [w.d.Get "name"]
    ∧ (dataSourceSecretRead Quote { w with d := w.d.Set "version" v₂ }).2.retrieved
      = w.retrieved ++ [w.d.Get "name"]
    ∧ (dataSourceSecretRead Quote { w with d := w.d.Set "version" v₁ }).2.d.Get "value"
      = (dataSourceSecretRead Quote { w with d := w.d.Set "version" v₂ }).2.d.Get "value"
    ∧ (dataSourceSecretRead Quote { w with d := w.d.Set "version" v₁ }).2.d.id
      = (dataSourceSecretRead Quote { w with d := w.d.Set "version" v₂ }).2.d.id
    ∧ (∀ key : String, key ≠ "version" →
        (dataSourceSecretRead Quote { w with d := w.d.Set "version" v₁ }).2.d.Get key
        = (dataSourceSecretRead Quote { w with d := w.d.Set "version" v₂ }).2.d.Get key)
    ∧ (dataSourceSecretRead Quote { w with d := w.d.Set "version" v₁ }).2.meta
      = (dataSourceSecretRead Quote { w with d := w.d.Set "version" v₂ }).2.meta
    ∧ (dataSourceSecretRead Quote { w with d := w.d.Set "version" v₁ }).2.log
      = w.log ++ ["[DEBUG] Getting secret for name=" ++ Quote (w.d.Get "name")
          ++ " version=" ++ Quote v₁]
    ∧ (dataSourceSecretRead Quote { w with d := w.d.Set "version" v₂ }).2.log
      = w.log ++ ["[DEBUG] Getting secret for name=" ++ Quote (w.d.Get "name")
          ++ " version=" ++ Quote v₂] := by
  have hn : ∀ v, (w.d.Set "version" v).Get "name" = w.d.Get "name" := by
    intro v
    rw [ResourceData_Get_Set, if_neg (by decide)]
  have hv : ∀ v, (w.d.Set "version" v).Get "version" = v := by
    intro v
    rw [ResourceData_Get_Set, if_pos rfl]
  cases h : w.meta.RetrieveSecret (w.d.Get "name") with
  | ok p =>
    have h1 : ∀ v, ({ w with d := w.d.Set "version" v } : World ε).meta.RetrieveSecret
        (({ w with d := w.d.Set "version" v } : World ε).d.Get "name") = .ok p := by
      intro v
      show w.meta.RetrieveSecret ((w.d.Set "version" v).Get "name") = _
      rw [hn, h]
    rw [read_of_retrieved Quote _ p (h1 v₁), read_of_retrieved Quote _ p (h1 v₂)]
    simp only [hn, hv, ResourceData_Get_SetId, ResourceData_Get_Set, if_true, true_and,
      and_true]
    refine ⟨rfl, ?_⟩
    intro key hk
    simp only [hk, if_false]
  | error e =>
    have h1 : ∀ v, ({ w with d := w.d.Set "version" v } : World ε).meta.RetrieveSecret
        (({ w with d := w.d.Set "version" v } : World ε).d.Get "name") = .error e := by
      intro v
      show w.meta.RetrieveSecret ((w.d.Set "version" v).Get "name") = _
      rw [hn, h]
    rw [read_of_failed Quote _ e (h1 v₁), read_of_failed Quote _ e (h1 v₂)]
    simp only [hn, hv, ResourceData_Get_Set, if_neg (show ¬ ("value" = "version") by decide),
      true_and, and_true]
    refine ⟨rfl, ?_⟩
    intro key hk
    simp only [hk, if_false]

end conjur
